import Mathlib

/-!
Verification of the conditional-response and content-encoding logic of
`src/rust_embed_for_web.rs` (the `Responder` implementation for
`EmbeddedForWebFileResponse` and its helper `respond`).

The header-parsing and encoding-acceptance collaborators
(`parse_if_none_match_value`, the RFC-2822 date parser, `accepts_gzip`)
live outside the core file; following the repository's data model, a
request carries their already-computed results: an optional token list
for If-None-Match (absent or unparseable headers arrive as `none`), an
optional seconds instant for If-Unmodified-Since, and a boolean for
gzip acceptance.  Likewise `EmbeddedFile` carries the metadata values
returned by `etag()`, `last_modified()`, `last_modified_timestamp()`,
and the `data` / `data_gzip` byte bodies.
-/

namespace RustEmbedForWeb

/-- Request method as the code distinguishes it: the responder only
compares the method against GET and HEAD (line 19 of the source). -/
inductive Method where
  | GET
  | HEAD
  | OTHER
deriving DecidableEq, Repr

/-- Metadata of an embedded file: the values of `metadata.etag()`
(already quoted by the producer), `metadata.last_modified()` and
`metadata.last_modified_timestamp()`. -/
structure Metadata where
  etag : String
  lastModified : Option String
  lastModifiedTimestamp : Option Int
deriving DecidableEq, Repr

/-- An embedded file: metadata plus the identity body `data` and the
optional pre-compressed body `data_gzip`. -/
structure EmbeddedFile where
  metadata : Metadata
  data : List Nat
  dataGzip : Option (List Nat)
deriving DecidableEq, Repr

/-- The view of an incoming request consumed by `respond_to`:
`ifNoneMatch` is the result of
`headers().get("If-None-Match").and_then(parse_if_none_match_value)`,
`ifUnmodifiedSince` the result of parsing If-Unmodified-Since as an
RFC-2822 date and taking its timestamp, and `acceptsGzip` the result of
the `accepts_gzip` collaborator. -/
structure HttpRequest where
  method : Method
  ifNoneMatch : Option (List String)
  ifUnmodifiedSince : Option Int
  acceptsGzip : Bool
deriving DecidableEq, Repr

/-- The observable response: status code, explicitly appended headers
(in order of the `append_header` calls), and body bytes. -/
structure HttpResponse where
  status : Nat
  headers : List (String × String)
  body : List Nat
deriving DecidableEq, Repr

/-- `HttpResponse::NotImplemented().finish()` (source line 20). -/
def notImplementedResponse : HttpResponse := ⟨501, [], []⟩

/-- `HttpResponse::NotModified().finish()` (source lines 42 and 62). -/
def notModifiedResponse : HttpResponse := ⟨304, [], []⟩

/-- Headers appended unconditionally by `respond` (source lines 79-84):
ETag always, Last-Modified only when known. -/
def respondBaseHeaders (file : EmbeddedFile) : List (String × String) :=
  ("ETag", file.metadata.etag) ::
    (match file.metadata.lastModified with
      | some lastModified => [("Last-Modified", lastModified)]
      | none => [])

/-- The `respond` helper (source lines 73-96): a 200 response carrying
ETag and (when known) Last-Modified; the gzip body with a
Content-Encoding header when the client accepts gzip and `data_gzip`
is present, the identity body otherwise. -/
def respond (file : EmbeddedFile) (req : HttpRequest) : HttpResponse :=
  match req.acceptsGzip, file.dataGzip with
  | true, some dataGzip =>
      ⟨200, respondBaseHeaders file ++ [("Content-Encoding", "gzip")], dataGzip⟩
  | true, none => ⟨200, respondBaseHeaders file, file.data⟩
  | false, _ => ⟨200, respondBaseHeaders file, file.data⟩

/-- The `respond_to` method (source lines 17-70): reject non-GET/HEAD
with 501; otherwise a present If-None-Match parse result fully decides
the outcome by membership of the file's etag; otherwise, when both the
file's timestamp and a parsed If-Unmodified-Since are available,
compare them; otherwise send the full response. -/
def respond_to (file : EmbeddedFile) (req : HttpRequest) : HttpResponse :=
  if req.method ≠ Method.GET ∧ req.method ≠ Method.HEAD then
    notImplementedResponse
  else
    match req.ifNoneMatch with
    | some reqEtags =>
        if file.metadata.etag ∈ reqEtags then
          notModifiedResponse
        else
          respond file req
    | none =>
        match file.metadata.lastModifiedTimestamp with
        | some lastModifiedTimestamp =>
            match req.ifUnmodifiedSince with
            | some ifUnmodifiedSince =>
                if lastModifiedTimestamp > ifUnmodifiedSince then
                  respond file req
                else
                  notModifiedResponse
            | none => respond file req
        | none => respond file req

/-- Every response built by `respond` has status 200. -/
theorem respond_status (file : EmbeddedFile) (req : HttpRequest) :
    (respond file req).status = 200 := by
  cases h : req.acceptsGzip <;> cases h2 : file.dataGzip <;>
    simp [respond, h, h2]

/-- For a GET or HEAD request the method gate does not fire. -/
theorem method_gate_passes (req : HttpRequest)
    (hm : req.method = Method.GET ∨ req.method = Method.HEAD) :
    ¬(req.method ≠ Method.GET ∧ req.method ≠ Method.HEAD) := by
  rcases hm with h | h <;> rw [h] <;> simp

/-- Characterization of `respond_to` past the method gate. -/
theorem respond_to_char (file : EmbeddedFile) (req : HttpRequest)
    (hm : req.method = Method.GET ∨ req.method = Method.HEAD) :
    respond_to file req =
      match req.ifNoneMatch with
      | some reqEtags =>
          if file.metadata.etag ∈ reqEtags then notModifiedResponse
          else respond file req
      | none =>
          match file.metadata.lastModifiedTimestamp, req.ifUnmodifiedSince with
          | some lastModifiedTimestamp, some ifUnmodifiedSince =>
              if lastModifiedTimestamp > ifUnmodifiedSince then respond file req
              else notModifiedResponse
          | _, _ => respond file req := by
  have hg := method_gate_passes req hm
  simp only [respond_to, if_neg hg]
  cases req.ifNoneMatch with
  | some reqEtags => rfl
  | none =>
      cases file.metadata.lastModifiedTimestamp <;>
        cases req.ifUnmodifiedSince <;> rfl

/-- The response built by `respond` does not depend on the request's
conditional headers, only on its gzip acceptance. -/
theorem respond_congr (file : EmbeddedFile) (req req' : HttpRequest)
    (h : req.acceptsGzip = req'.acceptsGzip) :
    respond file req = respond file req' := by
  unfold respond
  rw [h]

/-- Every `respond_to` result is one of the three response shapes. -/
theorem respond_to_cases (file : EmbeddedFile) (req : HttpRequest) :
    respond_to file req = notImplementedResponse ∨
      respond_to file req = notModifiedResponse ∨
      respond_to file req = respond file req := by
  unfold respond_to
  split
  · exact Or.inl rfl
  · split
    · split
      · exact Or.inr (Or.inl rfl)
      · exact Or.inr (Or.inr rfl)
    · split
      · split
        · split
          · exact Or.inr (Or.inr rfl)
          · exact Or.inr (Or.inl rfl)
        · exact Or.inr (Or.inr rfl)
      · exact Or.inr (Or.inr rfl)

/-- The gzip marker header never occurs among the base headers. -/
theorem content_encoding_not_base (file : EmbeddedFile) :
    ("Content-Encoding", "gzip") ∉ respondBaseHeaders file := by
  cases h : file.metadata.lastModified <;>
    simp [respondBaseHeaders, h, Prod.ext_iff]

/-- With a parsed If-None-Match list, `respond_to` reduces to the
membership test on the file's etag. -/
theorem respond_to_inm (file : EmbeddedFile) (req : HttpRequest)
    (tokens : List String)
    (hm : req.method = Method.GET ∨ req.method = Method.HEAD)
    (hinm : req.ifNoneMatch = some tokens) :
    respond_to file req =
      if file.metadata.etag ∈ tokens then notModifiedResponse
      else respond file req := by
  rw [respond_to_char file req hm, hinm]

/-- Without If-None-Match but with both time validators, `respond_to`
reduces to the timestamp comparison. -/
theorem respond_to_time (file : EmbeddedFile) (req : HttpRequest) (T S : Int)
    (hm : req.method = Method.GET ∨ req.method = Method.HEAD)
    (hinm : req.ifNoneMatch = none)
    (hT : file.metadata.lastModifiedTimestamp = some T)
    (hS : req.ifUnmodifiedSince = some S) :
    respond_to file req =
      if T > S then respond file req else notModifiedResponse := by
  rw [respond_to_char file req hm, hinm, hT, hS]

/-- Without If-None-Match and with at least one time validator missing,
`respond_to` falls through to the full response. -/
theorem respond_to_fallthrough (file : EmbeddedFile) (req : HttpRequest)
    (hm : req.method = Method.GET ∨ req.method = Method.HEAD)
    (hinm : req.ifNoneMatch = none)
    (hfall : file.metadata.lastModifiedTimestamp = none ∨
      req.ifUnmodifiedSince = none) :
    respond_to file req = respond file req := by
  rw [respond_to_char file req hm, hinm]
  rcases hfall with h | h
  · rw [h]
  · rw [h]
    cases file.metadata.lastModifiedTimestamp <;> rfl

/-- Status of the 304 response shape. -/
theorem notModified_status : notModifiedResponse.status = 304 := rfl

/-- Status of the 501 response shape. -/
theorem notImplemented_status : notImplementedResponse.status = 501 := rfl

/-- Sample embedded file used by the concrete witnesses. -/
def sampleFile : EmbeddedFile :=
  ⟨⟨"abc", some "Thu, 01 Jan 1970 00:16:40 GMT", some 1000⟩, [1, 2, 3],
    some [4, 5]⟩

/-- Sample embedded file agreeing with `sampleFile` on etag and
timestamp but differing in bodies and in the Last-Modified string. -/
def sampleFileVariant : EmbeddedFile :=
  ⟨⟨"abc", some "another date string", some 1000⟩, [9, 9], none⟩

/-- C1: for every GET/HEAD request whose If-None-Match header parses to
a non-empty token list, the outcome is NotModified (304) if and only if
the file's etag is a member of the list, and the outcome is independent
of any If-Unmodified-Since header on the same request. -/
theorem if_none_match_fully_decides
    (file : EmbeddedFile) (req : HttpRequest) (tokens : List String)
    (s : Option Int)
    (hm : req.method = Method.GET ∨ req.method = Method.HEAD)
    (hinm : req.ifNoneMatch = some tokens) (_hne : tokens ≠ []) :
    ((respond_to file req).status = 304 ↔ file.metadata.etag ∈ tokens) ∧
      respond_to file { req with ifUnmodifiedSince := s } =
        respond_to file req := by
  have hr := respond_to_inm file req tokens hm hinm
  have hr2 := respond_to_inm file { req with ifUnmodifiedSince := s }
    tokens hm hinm
  constructor
  · by_cases hmem : file.metadata.etag ∈ tokens
    · rw [hr, if_pos hmem, notModified_status]
      simp [hmem]
    · rw [hr, if_neg hmem, respond_status]
      simp [hmem]
  · rw [hr, hr2, respond_congr file { req with ifUnmodifiedSince := s } req rfl]

/-- C1 witness: with etag "abc" in the token list the outcome is 304,
and replacing the If-Unmodified-Since instant leaves it unchanged. -/
theorem if_none_match_fully_decides_witness :
    ((respond_to sampleFile ⟨Method.GET, some ["abc"], some 500, true⟩).status
        = 304 ↔ sampleFile.metadata.etag ∈ ["abc"]) ∧
      respond_to sampleFile ⟨Method.GET, some ["abc"], some 2000, true⟩ =
        respond_to sampleFile ⟨Method.GET, some ["abc"], some 500, true⟩ :=
  if_none_match_fully_decides sampleFile
    ⟨Method.GET, some ["abc"], some 500, true⟩ ["abc"] (some 2000)
    (Or.inl rfl) rfl (by decide)

/-- C2: for every GET/HEAD request without a parseable If-None-Match,
with the file's timestamp T and a parsed If-Unmodified-Since instant S,
the outcome is 200 iff T > S and 304 iff T ≤ S. -/
theorem if_unmodified_since_decides
    (file : EmbeddedFile) (req : HttpRequest) (T S : Int)
    (hm : req.method = Method.GET ∨ req.method = Method.HEAD)
    (hinm : req.ifNoneMatch = none)
    (hT : file.metadata.lastModifiedTimestamp = some T)
    (hS : req.ifUnmodifiedSince = some S) :
    ((respond_to file req).status = 200 ↔ T > S) ∧
      ((respond_to file req).status = 304 ↔ T ≤ S) := by
  have hr := respond_to_time file req T S hm hinm hT hS
  by_cases hTS : T > S
  · rw [hr, if_pos hTS]
    constructor <;> rw [respond_status] <;> omega
  · rw [hr, if_neg hTS]
    constructor <;> rw [notModified_status] <;> omega

/-- C2 witness: timestamp 1000 against instant 500 gives 200, and the
two iffs hold at those values. -/
theorem if_unmodified_since_decides_witness :
    ((respond_to sampleFile ⟨Method.GET, none, some 500, false⟩).status = 200
        ↔ (1000 : Int) > 500) ∧
      ((respond_to sampleFile ⟨Method.GET, none, some 500, false⟩).status = 304
        ↔ (1000 : Int) ≤ 500) :=
  if_unmodified_since_decides sampleFile ⟨Method.GET, none, some 500, false⟩
    1000 500 (Or.inl rfl) rfl rfl rfl

/-- C3: every request whose method is neither GET nor HEAD gets a 501
response, whatever its headers and whatever the file holds. -/
theorem method_gate_501 (file : EmbeddedFile) (req : HttpRequest)
    (hm : req.method ≠ Method.GET ∧ req.method ≠ Method.HEAD) :
    (respond_to file req).status = 501 := by
  simp only [respond_to]
  rw [if_pos hm, notImplemented_status]

/-- C3 witness: an OTHER-method request with validators and gzip
acceptance set still yields 501. -/
theorem method_gate_501_witness :
    (respond_to sampleFile
      ⟨Method.OTHER, some ["abc"], some 500, true⟩).status = 501 :=
  method_gate_501 sampleFile ⟨Method.OTHER, some ["abc"], some 500, true⟩
    ⟨by decide, by decide⟩

/-- C4: in a full response the body is the gzip body with a
Content-Encoding header exactly when the client accepts gzip and the
gzip body is present; otherwise the body is the identity body and no
Content-Encoding header occurs. -/
theorem encoding_choice (file : EmbeddedFile) (req : HttpRequest) :
    (∀ dataGzip, req.acceptsGzip = true → file.dataGzip = some dataGzip →
        (respond file req).body = dataGzip ∧
          ("Content-Encoding", "gzip") ∈ (respond file req).headers) ∧
      ((req.acceptsGzip = false ∨ file.dataGzip = none) →
        (respond file req).body = file.data ∧
          ("Content-Encoding", "gzip") ∉ (respond file req).headers) := by
  constructor
  · intro dataGzip ha hg
    simp [respond, ha, hg]
  · intro h
    have hbase := content_encoding_not_base file
    rcases h with ha | hg
    · cases hgz : file.dataGzip <;> simp [respond, ha, hgz, hbase]
    · cases ha : req.acceptsGzip <;> simp [respond, ha, hg, hbase]

/-- C4 witness: with gzip accepted and present the body is the gzip
body and the header occurs; with gzip refused the identity body is
sent without the header. -/
theorem encoding_choice_witness :
    ((respond sampleFile ⟨Method.GET, none, none, true⟩).body = [4, 5] ∧
        ("Content-Encoding", "gzip") ∈
          (respond sampleFile ⟨Method.GET, none, none, true⟩).headers) ∧
      ((respond sampleFile ⟨Method.GET, none, none, false⟩).body =
          sampleFile.data ∧
        ("Content-Encoding", "gzip") ∉
          (respond sampleFile ⟨Method.GET, none, none, false⟩).headers) :=
  ⟨(encoding_choice sampleFile ⟨Method.GET, none, none, true⟩).1
      [4, 5] rfl rfl,
    (encoding_choice sampleFile ⟨Method.GET, none, none, false⟩).2
      (Or.inl rfl)⟩

/-- C5: every full response has status 200, carries the ETag header
with the file's (already quoted) etag, and carries Last-Modified
exactly when the file knows it. -/
theorem sendfull_headers (file : EmbeddedFile) (req : HttpRequest) :
    (respond file req).status = 200 ∧
      ("ETag", file.metadata.etag) ∈ (respond file req).headers ∧
      (∀ lastModified, file.metadata.lastModified = some lastModified →
        ("Last-Modified", lastModified) ∈ (respond file req).headers) ∧
      (file.metadata.lastModified = none →
        ∀ v, ("Last-Modified", v) ∉ (respond file req).headers) := by
  refine ⟨respond_status file req, ?_, ?_, ?_⟩
  · cases ha : req.acceptsGzip <;> cases hg : file.dataGzip <;>
      simp [respond, ha, hg, respondBaseHeaders]
  · intro lastModified hlm
    cases ha : req.acceptsGzip <;> cases hg : file.dataGzip <;>
      simp [respond, ha, hg, respondBaseHeaders, hlm]
  · intro hlm v
    cases ha : req.acceptsGzip <;> cases hg : file.dataGzip <;>
      simp [respond, ha, hg, respondBaseHeaders, hlm, Prod.ext_iff]

/-- C5 witness: the concrete full response carries status 200, the
ETag header and the known Last-Modified header. -/
theorem sendfull_headers_witness :
    (respond sampleFile ⟨Method.GET, none, none, false⟩).status = 200 ∧
      ("ETag", sampleFile.metadata.etag) ∈
        (respond sampleFile ⟨Method.GET, none, none, false⟩).headers ∧
      ("Last-Modified", "Thu, 01 Jan 1970 00:16:40 GMT") ∈
        (respond sampleFile ⟨Method.GET, none, none, false⟩).headers :=
  ⟨(sendfull_headers sampleFile ⟨Method.GET, none, none, false⟩).1,
    (sendfull_headers sampleFile ⟨Method.GET, none, none, false⟩).2.1,
    (sendfull_headers sampleFile ⟨Method.GET, none, none, false⟩).2.2.1
      "Thu, 01 Jan 1970 00:16:40 GMT" rfl⟩

/-- C6: every 304 response is exactly the NotModified shape: empty
header list and empty body. -/
theorem not_modified_shape (file : EmbeddedFile) (req : HttpRequest)
    (h : (respond_to file req).status = 304) :
    respond_to file req = notModifiedResponse ∧
      (respond_to file req).headers = [] ∧
      (respond_to file req).body = [] := by
  rcases respond_to_cases file req with hc | hc | hc
  · rw [hc, notImplemented_status] at h
    exact absurd h (by decide)
  · rw [hc]
    exact ⟨rfl, rfl, rfl⟩
  · rw [hc, respond_status] at h
    exact absurd h (by decide)

/-- C6 witness: a matching If-None-Match yields the bare 304 shape. -/
theorem not_modified_shape_witness :
    respond_to sampleFile ⟨Method.GET, some ["abc"], none, false⟩ =
        notModifiedResponse ∧
      (respond_to sampleFile
        ⟨Method.GET, some ["abc"], none, false⟩).headers = [] ∧
      (respond_to sampleFile
        ⟨Method.GET, some ["abc"], none, false⟩).body = [] :=
  not_modified_shape sampleFile ⟨Method.GET, some ["abc"], none, false⟩
    (by decide)

/-- C7: a GET/HEAD request with no usable validators — no If-None-Match
parse, and the timestamp or the If-Unmodified-Since instant missing —
gets the full response. -/
theorem no_validators_send_full (file : EmbeddedFile) (req : HttpRequest)
    (hm : req.method = Method.GET ∨ req.method = Method.HEAD)
    (hinm : req.ifNoneMatch = none)
    (hfall : file.metadata.lastModifiedTimestamp = none ∨
      req.ifUnmodifiedSince = none) :
    respond_to file req = respond file req ∧
      (respond_to file req).status = 200 := by
  have hr := respond_to_fallthrough file req hm hinm hfall
  exact ⟨hr, by rw [hr, respond_status]⟩

/-- C7 witness: a HEAD request without any validator headers gets the
full response with status 200. -/
theorem no_validators_send_full_witness :
    respond_to sampleFile ⟨Method.HEAD, none, none, false⟩ =
        respond sampleFile ⟨Method.HEAD, none, none, false⟩ ∧
      (respond_to sampleFile ⟨Method.HEAD, none, none, false⟩).status = 200 :=
  no_validators_send_full sampleFile ⟨Method.HEAD, none, none, false⟩
    (Or.inr rfl) rfl (Or.inr rfl)

/-- C8: the response computation is deterministic: identical request
and file inputs produce identical responses. -/
theorem respond_to_deterministic (file₁ file₂ : EmbeddedFile)
    (req₁ req₂ : HttpRequest) (hf : file₁ = file₂) (hr : req₁ = req₂) :
    respond_to file₁ req₁ = respond_to file₂ req₂ := by
  rw [hf, hr]

/-- C8 witness: evaluating twice on the same concrete inputs agrees. -/
theorem respond_to_deterministic_witness :
    respond_to sampleFile ⟨Method.GET, none, some 500, true⟩ =
      respond_to sampleFile ⟨Method.GET, none, some 500, true⟩ :=
  respond_to_deterministic sampleFile sampleFile
    ⟨Method.GET, none, some 500, true⟩ ⟨Method.GET, none, some 500, true⟩
    rfl rfl

/-- C9: the status depends only on the method, the two conditional
headers, the etag and the timestamp: varying gzip acceptance, body
bytes, the gzip body or the Last-Modified string never changes it. -/
theorem status_noninterference (file file' : EmbeddedFile)
    (req req' : HttpRequest)
    (hmeq : req.method = req'.method)
    (hinm : req.ifNoneMatch = req'.ifNoneMatch)
    (hius : req.ifUnmodifiedSince = req'.ifUnmodifiedSince)
    (hetag : file.metadata.etag = file'.metadata.etag)
    (hlmt : file.metadata.lastModifiedTimestamp =
      file'.metadata.lastModifiedTimestamp) :
    (respond_to file req).status = (respond_to file' req').status := by
  by_cases hgate : req'.method ≠ Method.GET ∧ req'.method ≠ Method.HEAD
  · have hgate2 : req.method ≠ Method.GET ∧ req.method ≠ Method.HEAD := by
      rw [hmeq]; exact hgate
    simp only [respond_to]
    rw [if_pos hgate, if_pos hgate2]
  · have hm' : req'.method = Method.GET ∨ req'.method = Method.HEAD := by
      by_contra hc
      push_neg at hc
      exact hgate hc
    have hm : req.method = Method.GET ∨ req.method = Method.HEAD := by
      rw [hmeq]; exact hm'
    rw [respond_to_char file req hm, respond_to_char file' req' hm',
      hinm, hius, hetag, hlmt]
    cases hc : req'.ifNoneMatch with
    | some tokens =>
        by_cases hmem : file'.metadata.etag ∈ tokens
        · simp [hmem]
        · simp [hmem, respond_status]
    | none =>
        cases ht : file'.metadata.lastModifiedTimestamp with
        | some T =>
            cases hs : req'.ifUnmodifiedSince with
            | some S =>
                by_cases hTS : T > S
                · simp [hTS, respond_status]
                · simp [hTS]
            | none => simp [respond_status]
        | none => simp [respond_status]

/-- C9 witness: flipping gzip acceptance, dropping the gzip body,
changing the bytes and the Last-Modified string leaves the status
unchanged. -/
theorem status_noninterference_witness :
    (respond_to sampleFile ⟨Method.GET, none, some 500, true⟩).status =
      (respond_to sampleFileVariant
        ⟨Method.GET, none, some 500, false⟩).status :=
  status_noninterference sampleFile sampleFileVariant
    ⟨Method.GET, none, some 500, true⟩ ⟨Method.GET, none, some 500, false⟩
    rfl rfl rfl rfl rfl

/-- C10: the 501 rejection is the bare NotImplemented shape — empty
headers, empty body — and the file is never consulted: any other file
gives the same response. -/
theorem rejection_ignores_resource (file file' : EmbeddedFile)
    (req : HttpRequest)
    (hm : req.method ≠ Method.GET ∧ req.method ≠ Method.HEAD) :
    respond_to file req = notImplementedResponse ∧
      (respond_to file req).headers = [] ∧
      (respond_to file req).body = [] ∧
      respond_to file' req = respond_to file req := by
  have h : ∀ f : EmbeddedFile, respond_to f req = notImplementedResponse :=
    fun f => by
      simp only [respond_to]
      rw [if_pos hm]
  refine ⟨h file, ?_, ?_, by rw [h file', h file]⟩
  · rw [h file]; rfl
  · rw [h file]; rfl

/-- C10 witness: a POST-like request against both sample files gives
the identical bare 501 response. -/
theorem rejection_ignores_resource_witness :
    respond_to sampleFile ⟨Method.OTHER, some ["abc"], some 500, true⟩ =
        notImplementedResponse ∧
      (respond_to sampleFile
        ⟨Method.OTHER, some ["abc"], some 500, true⟩).headers = [] ∧
      (respond_to sampleFile
        ⟨Method.OTHER, some ["abc"], some 500, true⟩).body = [] ∧
      respond_to sampleFileVariant
          ⟨Method.OTHER, some ["abc"], some 500, true⟩ =
        respond_to sampleFile ⟨Method.OTHER, some ["abc"], some 500, true⟩ :=
  rejection_ignores_resource sampleFile sampleFileVariant
    ⟨Method.OTHER, some ["abc"], some 500, true⟩ ⟨by decide, by decide⟩

end RustEmbedForWeb
